import Mathlib

/-!
Verification of the FreeRTOS_abstract C++ header (FreeRTOS_abstract.h).

The header is a RAII wrapper over the FreeRTOS kernel.  We shallowly embed
the parts of it the claims talk about:

* the millisecond-to-tick boundary (WAIT_MAX, portMAX_DELAY, pdMS_TO_TICKS);
* the constructors of the five handle-owning primitives, in both the
  static-allocation and dynamic-allocation build branches, modelling the
  kernel create call outcome as a parameter and configASSERT failure as a
  halt;
* the Queue template (ring buffer state, TryEmplaceBack, TryPushBack,
  Front, Pop) together with the counting semaphore it is gated by;
* the Timer wrapper (Delete, destructor, Start, Stop);
* the Task::DoAsync runner as a small labelled transition system over its
  handler task and its destructor.

Machine integers: indices are size_t values that the code keeps strictly
below the template parameter size by explicit wrap-around comparisons, so
they are embedded as Nat; tick arithmetic that can overflow is reduced
modulo 2 ^ w for an explicit TickType width w.
-/

/-- Wait-forever tick value of the kernel: portMAX_DELAY is the all-ones
value of the TickType, here for a TickType that is w bits wide. -/
def portMAX_DELAY (w : Nat) : Nat := 2 ^ w - 1

/-- The WAIT_MAX macro of FreeRTOS_abstract.h line 43: defined to be
portMAX_DELAY. -/
def WAIT_MAX (w : Nat) : Nat := portMAX_DELAY w

/-- Kernel boundary macro pdMS_TO_TICKS (external FreeRTOS collaborator,
standard definition): multiply the millisecond value by configTICK_RATE_HZ
(parameter hz), divide by 1000 in a wide intermediate, and truncate the
result to the TickType width w. -/
def pdMS_TO_TICKS (hz w ms : Nat) : Nat := ms * hz / 1000 % 2 ^ w

/-- Tick argument that Mutex::Lock (line 119) hands to xSemaphoreTake:
the conversion of its wait_ms parameter. -/
def Mutex_Lock_ticks (hz w wait_ms : Nat) : Nat := pdMS_TO_TICKS hz w wait_ms

/-- Outcome of running one of the wrapping constructors: either the
configASSERT halted the system, or construction completed with the stored
handle value (none models a null handle). -/
inductive Constructed where
  | halted
  | completed (handle : Option Nat)
deriving DecidableEq

/-- Mutex constructor, static-allocation branch (lines 94 to 95): the
result of xSemaphoreCreateMutexStatic is stored without any configASSERT,
so construction always completes, even when the create call returns null. -/
def Mutex_construct_static (create : Option Nat) : Constructed :=
  Constructed.completed create

/-- Mutex constructor, dynamic-allocation branch (lines 97 to 98): the
result of xSemaphoreCreateMutex is stored and configASSERT halts when it
is null. -/
def Mutex_construct_dynamic (create : Option Nat) : Constructed :=
  match create with
  | none => Constructed.halted
  | some h => Constructed.completed (some h)

/-- BinarySemaphore constructor, static branch (line 176): stores the
xSemaphoreCreateBinaryStatic result unchecked, like the Mutex branch. -/
def BinarySemaphore_construct_static (create : Option Nat) : Constructed :=
  Constructed.completed create

/-- BinarySemaphore constructor, dynamic branch (lines 178 to 179):
configASSERT on a null handle. -/
def BinarySemaphore_construct_dynamic (create : Option Nat) : Constructed :=
  match create with
  | none => Constructed.halted
  | some h => Constructed.completed (some h)

/-- CountingSemaphore constructor, static branch (lines 242 to 243):
stores the xSemaphoreCreateCountingStatic result unchecked. -/
def CountingSemaphore_construct_static (create : Option Nat) : Constructed :=
  Constructed.completed create

/-- CountingSemaphore constructor, dynamic branch (lines 245 to 246):
configASSERT on a null handle. -/
def CountingSemaphore_construct_dynamic (create : Option Nat) : Constructed :=
  match create with
  | none => Constructed.halted
  | some h => Constructed.completed (some h)

/-- Task constructor, static branch (lines 293 to 300): stores the
xTaskCreateStatic result and configASSERT halts when it is null. -/
def Task_construct_static (create : Option Nat) : Constructed :=
  match create with
  | none => Constructed.halted
  | some h => Constructed.completed (some h)

/-- Task constructor, dynamic branch (lines 302 to 307): configASSERT on
the xTaskCreate return code, halting when creation failed. -/
def Task_construct_dynamic (create : Option Nat) : Constructed :=
  match create with
  | none => Constructed.halted
  | some h => Constructed.completed (some h)

/-- Timer constructor, static branch (lines 753 to 756 and 763): the
configASSERT on line 763 sits after both branches, so a null handle halts
in the static build as well. -/
def Timer_construct_static (create : Option Nat) : Constructed :=
  match create with
  | none => Constructed.halted
  | some h => Constructed.completed (some h)

/-- Timer constructor, dynamic branch (lines 758 to 763): configASSERT on
a null handle. -/
def Timer_construct_dynamic (create : Option Nat) : Constructed :=
  match create with
  | none => Constructed.halted
  | some h => Constructed.completed (some h)

/-- Give on the counting semaphore (xSemaphoreGive reached through
Mutex::Unlock, line 131): increments the count when it is below the
maximum, otherwise fails and leaves the count unchanged.  Returns the
success flag and the new count. -/
def CountingSemaphore_Give (max count : Nat) : Bool × Nat :=
  if count < max then (true, count + 1) else (false, count)

/-- Take on the counting semaphore (xSemaphoreTake reached through
Mutex::Lock, line 120), in the sequential single-consumer model: succeeds
and decrements when the count is positive, otherwise times out with the
count unchanged. -/
def CountingSemaphore_Take (count : Nat) : Bool × Nat :=
  if 0 < count then (true, count - 1) else (false, count)

/-- State of a Queue of element type T and template parameter size
(lines 616 to 627): the slot array, the count of the internal counting
semaphore (constructed with initial 0 and max size, line 623), and the
read and write indices, both starting at 0. -/
structure QueueState (T : Type) (size : Nat) where
  buffer : Nat → T
  count : Nat
  rd_idx : Nat
  wr_idx : Nat

/-- The next_wr_idx computation of Queue::TryEmplaceBack (lines 656 to
658): increment the write index and wrap to 0 when it reaches size. -/
def Queue_next_wr {T : Type} {size : Nat} (s : QueueState T size) : Nat :=
  if s.wr_idx + 1 = size then 0 else s.wr_idx + 1

/-- Queue::TryEmplaceBack (lines 650 to 667): fail when the next write
index would collide with the read index, otherwise construct the element
in the current write slot, give the semaphore (its return value is
discarded by the code), advance the write index and succeed. -/
def Queue_TryEmplaceBack {T : Type} {size : Nat} (s : QueueState T size) (x : T) :
    Bool × QueueState T size :=
  if Queue_next_wr s = s.rd_idx then
    (false, s)
  else
    (true,
      { s with
        buffer := fun i => if i = s.wr_idx then x else s.buffer i
        count := (CountingSemaphore_Give size s.count).2
        wr_idx := Queue_next_wr s })

/-- Queue::TryPushBack (lines 680 to 682): sugar for TryEmplaceBack with
a copy of the item. -/
def Queue_TryPushBack {T : Type} {size : Nat} (s : QueueState T size) (item : T) :
    Bool × QueueState T size :=
  Queue_TryEmplaceBack s item

/-- Queue::Front (lines 694 to 704), sequential model.  The returned
Option Nat is the pointer: some i points at slot i of the buffer, none is
nullptr.  When the indices are equal the code either returns null at once
(wait_ms = 0) or blocks on the semaphore; a take that times out returns
null, a take that succeeds falls through to return the read slot. -/
def Queue_Front {T : Type} {size : Nat} (s : QueueState T size) (wait_ms : Nat) :
    Option Nat × QueueState T size :=
  if s.wr_idx = s.rd_idx then
    if wait_ms ≠ 0 then
      if (CountingSemaphore_Take s.count).1 then
        (some s.rd_idx, { s with count := (CountingSemaphore_Take s.count).2 })
      else
        (none, { s with count := (CountingSemaphore_Take s.count).2 })
    else
      (none, s)
  else
    (some s.rd_idx, s)

/-- Queue::Pop (lines 706 to 713): run the destructor on the current read
slot (the first component records which slot that was), then advance the
read index, wrapping to 0 when it reaches size.  The code performs no
emptiness check and never touches the semaphore. -/
def Queue_Pop {T : Type} {size : Nat} (s : QueueState T size) :
    Nat × QueueState T size :=
  (s.rd_idx,
    { s with rd_idx := if s.rd_idx + 1 = size then 0 else s.rd_idx + 1 })

/-- Occupied-slot count of the ring buffer: (write_index - read_index)
modulo size, written with a size offset so that Nat subtraction cannot
truncate while the indices stay below size. -/
def Queue_resident {T : Type} {size : Nat} (s : QueueState T size) : Nat :=
  (s.wr_idx + size - s.rd_idx) % size

/-- One operation of the Queue public interface used by the claims. -/
inductive QOp (T : Type) where
  | emplace (x : T)
  | frontOp (wait_ms : Nat)
  | popOp

/-- Effect of one operation on the queue state. -/
def Queue_step {T : Type} {size : Nat} (s : QueueState T size) : QOp T → QueueState T size
  | QOp.emplace x => (Queue_TryEmplaceBack s x).2
  | QOp.frontOp w => (Queue_Front s w).2
  | QOp.popOp => (Queue_Pop s).2

/-- Freshly constructed queue: both indices 0, semaphore count 0 (initial
value 0 at line 623), arbitrary initial slot contents b0. -/
def Queue_init {T : Type} {size : Nat} (b0 : Nat → T) : QueueState T size :=
  { buffer := b0, count := 0, rd_idx := 0, wr_idx := 0 }

/-- States reachable from a freshly constructed queue by any sequence of
interface operations.  The template is only instantiable with a positive
size (the code declares T buffer with size slots). -/
inductive Queue_Reachable {T : Type} {size : Nat} : QueueState T size → Prop where
  | init (b0 : Nat → T) (hsz : 0 < size) : Queue_Reachable (Queue_init b0)
  | step {s : QueueState T size} (op : QOp T) :
      Queue_Reachable s → Queue_Reachable (Queue_step s op)

/-- Coupling invariant between a queue state and the abstract list of its
live elements, oldest first: indices are in range, the list leaves at
least one slot free, the write index sits length slots past the read
index on the ring, and slot (rd_idx + i) mod size holds element i. -/
structure ContentsInv {T : Type} {size : Nat} (s : QueueState T size) (l : List T) : Prop where
  hsz : 0 < size
  hrd : s.rd_idx < size
  hwr : s.wr_idx < size
  hlen : l.length < size
  hidx : s.wr_idx = (s.rd_idx + l.length) % size
  helem : ∀ i : Nat, i < l.length → l[i]? = some (s.buffer ((s.rd_idx + i) % size))

/-- State of the Timer wrapper (lines 720 to 813): the stored handle
(none models nullptr) plus a ghost counter of how many xTimerDelete calls
have reached the kernel. -/
structure TimerState where
  handle : Option Nat
  kernelDeletes : Nat
deriving DecidableEq

/-- Timer::Delete (lines 781 to 786): when the handle is non-null, call
xTimerDelete on it (counted by the ghost field; its success is asserted),
then null the handle; when the handle is already null, only the (already
null) handle assignment happens.  The wait_ms parameter is only handed to
the kernel call and does not affect the wrapper state. -/
def Timer_Delete (wait_ms : Nat) (s : TimerState) : TimerState :=
  match s.handle with
  | some _ => { handle := none, kernelDeletes := s.kernelDeletes + 1 }
  | none => { handle := none, kernelDeletes := s.kernelDeletes }

/-- Timer destructor (lines 769 to 771): calls Delete with the default
wait_ms = 0. -/
def Timer_destructor (s : TimerState) : TimerState := Timer_Delete 0 s

/-- Timer::Start (lines 794 to 797).  The first component is the tick
value handed to xTimerStart; the second is what the caller observes:
some unit when the kernel accepted the command (the function returns
void), none when it did not and configASSERT halted the system.  No
boolean failure value exists in the signature. -/
def Timer_Start (hz w wait_ms : Nat) (accepted : Bool) : Nat × Option Unit :=
  (pdMS_TO_TICKS hz w wait_ms, if accepted then some () else none)

/-- Timer::Stop (lines 809 to 812), same shape as Timer::Start. -/
def Timer_Stop (hz w wait_ms : Nat) (accepted : Bool) : Nat × Option Unit :=
  (pdMS_TO_TICKS hz w wait_ms, if accepted then some () else none)

/-- Give on a binary semaphore (count capped at 1): used by the DoAsync
model for the done flag (fresh BinarySemaphore, initially not given). -/
def BinarySemaphore_give (count : Nat) : Nat :=
  if count < 1 then count + 1 else count

/-- Program counter of the DoAsync handler task (lines 515 to 520): it
runs the job, gives the done semaphore, then self-deletes. -/
inductive HandlerPC where
  | atStart
  | jobRun
  | doneGiven
  | deleted
deriving DecidableEq

/-- Joint state of one DoAsync instance: the handler task position, the
count of the done binary semaphore, and whether the destructor has
returned from its Take. -/
structure AsyncState where
  pc : HandlerPC
  doneCount : Nat
  dtorReturned : Bool
deriving DecidableEq

/-- State right after the DoAsync constructor returns: the spawned task
has not run yet, done is not given, the destructor has not returned. -/
def Async_init : AsyncState :=
  { pc := HandlerPC.atStart, doneCount := 0, dtorReturned := false }

/-- Tick argument that the DoAsync destructor's done.Take(WAIT_MAX)
(line 551) hands to xSemaphoreTake after the millisecond-to-tick
conversion done by Mutex::Lock (line 121). -/
def DoAsync_dtor_ticks (hz w : Nat) : Nat := pdMS_TO_TICKS hz w (WAIT_MAX w)

/-- Interleaved small-step semantics of a DoAsync instance, for a kernel
with tick rate hz and TickType width w.  The handler steps execute lines
517 to 519 in order.  The destructor of line 551 blocks on the done
semaphore with the tick budget DoAsync_dtor_ticks hz w: its take step
fires once the count is positive, and, because the kernel waits forever
only on the exact tick value portMAX_DELAY, a timeout step lets the
destructor return with the semaphore untaken whenever the converted
budget differs from portMAX_DELAY (the false that Take returns is
discarded by the destructor). -/
inductive AsyncStep (hz w : Nat) : AsyncState → AsyncState → Prop where
  | runJob (s : AsyncState) :
      s.pc = HandlerPC.atStart →
      AsyncStep hz w s { s with pc := HandlerPC.jobRun }
  | giveDone (s : AsyncState) :
      s.pc = HandlerPC.jobRun →
      AsyncStep hz w s { s with pc := HandlerPC.doneGiven,
                                doneCount := BinarySemaphore_give s.doneCount }
  | selfDelete (s : AsyncState) :
      s.pc = HandlerPC.doneGiven →
      AsyncStep hz w s { s with pc := HandlerPC.deleted }
  | dtorTake (s : AsyncState) :
      0 < s.doneCount →
      s.dtorReturned = false →
      AsyncStep hz w s { s with doneCount := s.doneCount - 1, dtorReturned := true }
  | dtorTimeout (s : AsyncState) :
      DoAsync_dtor_ticks hz w ≠ portMAX_DELAY w →
      s.doneCount = 0 →
      s.dtorReturned = false →
      AsyncStep hz w s { s with dtorReturned := true }

/-- States of a DoAsync instance reachable from construction. -/
inductive AsyncReach (hz w : Nat) : AsyncState → Prop where
  | init : AsyncReach hz w Async_init
  | step {s t : AsyncState} :
      AsyncReach hz w s → AsyncStep hz w s t → AsyncReach hz w t

/-! ## Claim C1: the occupied-slot / semaphore-count invariant -/

/-- Freshly constructed Queue of Nat with template size 2, used to run the
code on a concrete input. -/
def c1_state0 : QueueState Nat 2 := Queue_init (fun _ => 0)

/-- C1: the claim says that after each operation the occupied-slot count
(write_index - read_index) mod N equals the internal semaphore count.
Running the code on a size-2 queue refutes it: after one successful
TryEmplaceBack followed by one Pop the ring holds 0 elements but the
semaphore count is still 1, because Pop (lines 706 to 713) never takes
the semaphore.  A subsequent Front with a nonzero wait on this empty
queue then consumes the stale count and returns a non-null pointer to the
read slot, contradicting the documented nullptr-when-empty behaviour of
Front (line 691). -/
theorem queue_pop_semaphore_divergence :
    Queue_resident (Queue_Pop (Queue_TryEmplaceBack c1_state0 5).2).2 = 0 ∧
    (Queue_Pop (Queue_TryEmplaceBack c1_state0 5).2).2.count = 1 ∧
    (Queue_Front (Queue_Pop (Queue_TryEmplaceBack c1_state0 5).2).2 5).1 = some 1 := by
  refine ⟨rfl, rfl, rfl⟩

/-! ## Claim C2: the wait-forever sentinel at the tick boundary -/

/-- C2 counterexample: with a 32-bit TickType and configTICK_RATE_HZ set
to 100, the tick value that Lock hands to the kernel for WAIT_MAX is not
portMAX_DELAY, and it coincides with the converted value of the finite
timeout 4294967290 ms. -/
theorem wait_max_conversion_counterexample :
    pdMS_TO_TICKS 100 32 (WAIT_MAX 32) ≠ portMAX_DELAY 32 ∧
    4294967290 < WAIT_MAX 32 ∧
    pdMS_TO_TICKS 100 32 4294967290 = pdMS_TO_TICKS 100 32 (WAIT_MAX 32) := by
  refine ⟨by decide, by decide, by decide⟩

/-- C2 (amended): when configTICK_RATE_HZ is 1000 the millisecond-to-tick
conversion is the identity on every value below 2 ^ w, so WAIT_MAX
converts to the kernel wait-forever value portMAX_DELAY and the converted
value of every finite timeout differs from it. -/
theorem wait_max_identity_at_1000hz (w ms : Nat) (hms : ms < WAIT_MAX w) :
    pdMS_TO_TICKS 1000 w (WAIT_MAX w) = portMAX_DELAY w ∧
    pdMS_TO_TICKS 1000 w ms ≠ portMAX_DELAY w := by
  have hpw : 0 < 2 ^ w := Nat.pos_pow_of_pos w (by norm_num)
  have hms2 : ms < 2 ^ w - 1 := hms
  unfold pdMS_TO_TICKS WAIT_MAX portMAX_DELAY
  have h1 : (2 ^ w - 1) * 1000 / 1000 = 2 ^ w - 1 := by omega
  have h2 : ms * 1000 / 1000 = ms := by omega
  rw [h1, h2, Nat.mod_eq_of_lt (by omega), Nat.mod_eq_of_lt (by omega)]
  omega

/-- Closed instance of the amended C2 statement at w = 32, ms = 5. -/
theorem wait_max_identity_at_1000hz_witness :
    5 < WAIT_MAX 32 ∧
    (pdMS_TO_TICKS 1000 32 (WAIT_MAX 32) = portMAX_DELAY 32 ∧
     pdMS_TO_TICKS 1000 32 5 ≠ portMAX_DELAY 32) :=
  ⟨by decide, wait_max_identity_at_1000hz 32 5 (by decide)⟩

/-! ## Claim C3: construction halts on handle-creation failure -/

/-- C3 counterexample: in the static-allocation build the Mutex
constructor stores the result of xSemaphoreCreateMutexStatic without any
configASSERT, so when creation fails construction completes with a null
handle instead of halting. -/
theorem static_mutex_null_handle_counterexample :
    Mutex_construct_static none = Constructed.completed none ∧
    Mutex_construct_static none ≠ Constructed.halted := by
  refine ⟨rfl, by decide⟩

/-- C3 (amended): in dynamic-allocation builds every one of the five
primitives halts when handle creation fails and can never complete with a
null handle; in static-allocation builds Task and Timer do the same,
while the Mutex, BinarySemaphore and CountingSemaphore static branches
store the creation result unchecked and complete even with a null
handle. -/
theorem construction_failure_halting :
    Mutex_construct_dynamic none = Constructed.halted ∧
    BinarySemaphore_construct_dynamic none = Constructed.halted ∧
    CountingSemaphore_construct_dynamic none = Constructed.halted ∧
    Task_construct_dynamic none = Constructed.halted ∧
    Timer_construct_dynamic none = Constructed.halted ∧
    Task_construct_static none = Constructed.halted ∧
    Timer_construct_static none = Constructed.halted ∧
    (∀ r : Option Nat, Mutex_construct_dynamic r ≠ Constructed.completed none) ∧
    (∀ r : Option Nat, BinarySemaphore_construct_dynamic r ≠ Constructed.completed none) ∧
    (∀ r : Option Nat, CountingSemaphore_construct_dynamic r ≠ Constructed.completed none) ∧
    (∀ r : Option Nat, Task_construct_dynamic r ≠ Constructed.completed none) ∧
    (∀ r : Option Nat, Timer_construct_dynamic r ≠ Constructed.completed none) ∧
    (∀ r : Option Nat, Task_construct_static r ≠ Constructed.completed none) ∧
    (∀ r : Option Nat, Timer_construct_static r ≠ Constructed.completed none) ∧
    Mutex_construct_static none = Constructed.completed none ∧
    BinarySemaphore_construct_static none = Constructed.completed none ∧
    CountingSemaphore_construct_static none = Constructed.completed none := by
  refine ⟨rfl, rfl, rfl, rfl, rfl, rfl, rfl, ?_, ?_, ?_, ?_, ?_, ?_, ?_, rfl, rfl, rfl⟩ <;>
    intro r <;> cases r <;>
    simp [Mutex_construct_dynamic, BinarySemaphore_construct_dynamic,
      CountingSemaphore_construct_dynamic, Task_construct_dynamic,
      Timer_construct_dynamic, Task_construct_static, Timer_construct_static]

/-! ## Claim C6: TryEmplaceBack on a full queue has no effect -/

/-- C6: whenever the next write index computed by TryEmplaceBack collides
with the read index, the call returns false and the state it returns is
the input state itself: no element is constructed, neither index moves
and the semaphore count is unchanged. -/
theorem queue_full_emplace_no_effect {T : Type} {size : Nat}
    (s : QueueState T size) (x : T)
    (hfull : Queue_next_wr s = s.rd_idx) :
    Queue_TryEmplaceBack s x = (false, s) := by
  unfold Queue_TryEmplaceBack
  rw [if_pos hfull]

/-- Concrete full state for the C6 witness: size 2, one live element. -/
def c6_state : QueueState Nat 2 :=
  { buffer := fun _ => 0, count := 1, rd_idx := 0, wr_idx := 1 }

/-- Closed instance of C6 on a concrete full size-2 queue. -/
theorem queue_full_emplace_no_effect_witness :
    Queue_next_wr c6_state = c6_state.rd_idx ∧
    Queue_TryEmplaceBack c6_state 7 = (false, c6_state) :=
  ⟨rfl, queue_full_emplace_no_effect c6_state 7 rfl⟩

/-! ## Claim C8: Timer Delete is idempotent-safe -/

/-- Deleting an already-deleted timer changes nothing, for any wait. -/
theorem Timer_Delete_nullHandle (w k : Nat) :
    Timer_Delete w { handle := none, kernelDeletes := k } =
      { handle := none, kernelDeletes := k } := rfl

/-- Iterating Delete on an already-deleted timer changes nothing. -/
theorem Timer_Delete_iter_nullHandle (w k : Nat) : ∀ n : Nat,
    (Timer_Delete w)^[n] { handle := none, kernelDeletes := k } =
      { handle := none, kernelDeletes := k }
  | 0 => rfl
  | n + 1 => by
      rw [Function.iterate_succ_apply, Timer_Delete_nullHandle,
        Timer_Delete_iter_nullHandle w k n]

/-- C8: after any Delete the handle is null; a further Delete (with any
wait), and in particular the one the destructor performs, leaves the
state unchanged and reaches the kernel no further time; starting from a
fresh timer, any number of Delete calls performs at most one kernel
delete. -/
theorem timer_delete_idempotent :
    (∀ (w1 : Nat) (s : TimerState), (Timer_Delete w1 s).handle = none) ∧
    (∀ (w1 w2 : Nat) (s : TimerState),
      Timer_Delete w2 (Timer_Delete w1 s) = Timer_Delete w1 s) ∧
    (∀ (w1 : Nat) (s : TimerState),
      Timer_destructor (Timer_Delete w1 s) = Timer_Delete w1 s) ∧
    (∀ (w h n : Nat),
      ((Timer_Delete w)^[n] { handle := some h, kernelDeletes := 0 }).kernelDeletes ≤ 1) := by
  refine ⟨?_, ?_, ?_, ?_⟩
  · intro w1 s; obtain ⟨h, k⟩ := s; cases h <;> rfl
  · intro w1 w2 s; obtain ⟨h, k⟩ := s; cases h <;> rfl
  · intro w1 s; obtain ⟨h, k⟩ := s; cases h <;> rfl
  · intro w h n
    cases n with
    | zero => simp
    | succ m =>
        rw [Function.iterate_succ_apply,
          show Timer_Delete w { handle := some h, kernelDeletes := 0 } =
            { handle := none, kernelDeletes := 1 } from rfl,
          Timer_Delete_iter_nullHandle]

/-! ## Claim C9: frame effect of Pop -/

/-- C9: for every queue state, also an empty one, Pop reports the current
read slot as the slot whose destructor ran, leaves the semaphore count,
the write index and the whole buffer untouched, and advances only the
read index with wrap-around; no emptiness check guards any of this. -/
theorem queue_pop_frame {T : Type} {size : Nat} (s : QueueState T size) :
    (Queue_Pop s).1 = s.rd_idx ∧
    (Queue_Pop s).2.count = s.count ∧
    (Queue_Pop s).2.wr_idx = s.wr_idx ∧
    (Queue_Pop s).2.buffer = s.buffer ∧
    (Queue_Pop s).2.rd_idx = (if s.rd_idx + 1 = size then 0 else s.rd_idx + 1) :=
  ⟨rfl, rfl, rfl, rfl, rfl⟩

/-! ## Claim C10: Timer Start and Stop halt instead of reporting failure -/

/-- C10: Start and Stop return no status to the caller: when the kernel
accepts the command within the wait budget the call returns plain unit,
and when it does not the configASSERT halts the system (modelled as
none); the converted tick budget is what reaches the kernel. -/
theorem timer_start_stop_halt_on_failure :
    ∀ hz w wait_ms : Nat,
      Timer_Start hz w wait_ms true = (pdMS_TO_TICKS hz w wait_ms, some ()) ∧
      Timer_Start hz w wait_ms false = (pdMS_TO_TICKS hz w wait_ms, none) ∧
      Timer_Stop hz w wait_ms true = (pdMS_TO_TICKS hz w wait_ms, some ()) ∧
      Timer_Stop hz w wait_ms false = (pdMS_TO_TICKS hz w wait_ms, none) :=
  fun hz w wait_ms => ⟨rfl, rfl, rfl, rfl⟩

/-! ## Claim C7: the DoAsync destructor is a join point -/

/-- C7 counterexample: with configTICK_RATE_HZ = 100 and 32-bit ticks
the destructor's converted wait budget is a finite tick count, so from a
fresh DoAsync instance a single timeout step reaches a state in which
the destructor has returned while the handler has not even started the
job: the destructor is not unconditionally a join point and its block is
not unconditionally indefinite. -/
theorem doasync_dtor_timeout_counterexample :
    AsyncReach 100 32
      { pc := HandlerPC.atStart, doneCount := 0, dtorReturned := true } ∧
    ¬ (HandlerPC.atStart = HandlerPC.doneGiven ∨
       HandlerPC.atStart = HandlerPC.deleted) := by
  refine ⟨?_, by decide⟩
  exact AsyncReach.step AsyncReach.init
    (AsyncStep.dtorTimeout Async_init (by decide) rfl rfl)

/-- Inductive invariant of the DoAsync transition system when the
destructor's converted wait argument is the kernel wait-forever value
(so the timeout step is disabled): while the handler has not yet given
the done semaphore, the count is 0 and the destructor cannot have
returned; the binary count never exceeds 1. -/
theorem AsyncReach_good {hz w : Nat} {s : AsyncState}
    (hWF : DoAsync_dtor_ticks hz w = portMAX_DELAY w)
    (h : AsyncReach hz w s) :
    ((s.pc = HandlerPC.atStart ∨ s.pc = HandlerPC.jobRun) →
      s.doneCount = 0 ∧ s.dtorReturned = false) ∧ s.doneCount ≤ 1 := by
  induction h with
  | init => exact ⟨fun _ => ⟨rfl, rfl⟩, Nat.zero_le _⟩
  | @step u t hr hstep ih =>
      obtain ⟨ih1, ih2⟩ := ih
      cases hstep with
      | runJob hpc =>
          exact ⟨fun _ => ih1 (Or.inl hpc), ih2⟩
      | giveDone hpc =>
          have h0 : u.doneCount = 0 := (ih1 (Or.inr hpc)).1
          refine ⟨?_, ?_⟩
          · intro hcontra
            rcases hcontra with hc | hc <;> simp at hc
          · show BinarySemaphore_give u.doneCount ≤ 1
            rw [h0]
            decide
      | selfDelete hpc =>
          refine ⟨?_, ih2⟩
          intro hcontra
          rcases hcontra with hc | hc <;> simp at hc
      | dtorTake hdc hdtor =>
          refine ⟨?_, Nat.le_trans (Nat.sub_le _ _) ih2⟩
          intro hpc
          exact absurd (ih1 hpc).1 (by omega)
      | dtorTimeout hfin hcount hdtor =>
          exact absurd hWF hfin

/-- C7 (amended): provided the destructor's converted wait argument
equals the kernel wait-forever tick value portMAX_DELAY (as it does at
tick rate 1000), the destructor blocks until the done semaphore is
given, and in every reachable state in which it has returned the handler
has already run the job to completion and given the done semaphore (its
program counter is at or past the give).  At other tick rates the wait
budget is finite and the destructor can time out and return while the
job is still incomplete. -/
theorem doasync_dtor_join {hz w : Nat} {s : AsyncState}
    (hWF : DoAsync_dtor_ticks hz w = portMAX_DELAY w)
    (h : AsyncReach hz w s) (hret : s.dtorReturned = true) :
    s.pc = HandlerPC.doneGiven ∨ s.pc = HandlerPC.deleted := by
  obtain ⟨good1, _⟩ := AsyncReach_good hWF h
  cases hpc : s.pc with
  | atStart =>
      have hd := (good1 (Or.inl hpc)).2
      rw [hret] at hd
      exact absurd hd (by decide)
  | jobRun =>
      have hd := (good1 (Or.inr hpc)).2
      rw [hret] at hd
      exact absurd hd (by decide)
  | doneGiven => exact Or.inl rfl
  | deleted => exact Or.inr rfl

/-- Concrete state reached by running the handler up to the give and then
letting the destructor take: used as the closed C7 instance. -/
def c7_state : AsyncState :=
  { pc := HandlerPC.doneGiven, doneCount := 0, dtorReturned := true }

/-- Closed instance of the amended C7 at tick rate 1000 with 32-bit
ticks, on a concrete execution of the system. -/
theorem doasync_dtor_join_witness :
    DoAsync_dtor_ticks 1000 32 = portMAX_DELAY 32 ∧
    (c7_state.pc = HandlerPC.doneGiven ∨ c7_state.pc = HandlerPC.deleted) :=
  ⟨by decide,
   @doasync_dtor_join 1000 32 c7_state (by decide)
     (AsyncReach.step
       (AsyncReach.step
         (AsyncReach.step AsyncReach.init (AsyncStep.runJob Async_init rfl))
         (AsyncStep.giveDone _ rfl))
       (AsyncStep.dtorTake _ (by decide) rfl))
     rfl⟩

/-! ## Claim C4: usable capacity is size - 1 -/

/-- Reduction of a single wrap-around modulo: for a below twice the
modulus, a mod size subtracts size at most once. -/
theorem wrapMod (size a : Nat) (h : a < 2 * size) :
    a % size = if a < size then a else a - size := by
  split
  · exact Nat.mod_eq_of_lt (by assumption)
  · have h2 : a - size < size := by omega
    conv_lhs => rw [show a = a - size + size by omega]
    rw [Nat.add_mod_right]
    exact Nat.mod_eq_of_lt h2

/-- TryEmplaceBack never moves the read index. -/
theorem Queue_emplace_rd {T : Type} {size : Nat} (s : QueueState T size) (x : T) :
    (Queue_TryEmplaceBack s x).2.rd_idx = s.rd_idx := by
  unfold Queue_TryEmplaceBack
  split <;> rfl

/-- TryEmplaceBack leaves the write index alone or moves it to the next
wrapped index. -/
theorem Queue_emplace_wr {T : Type} {size : Nat} (s : QueueState T size) (x : T) :
    (Queue_TryEmplaceBack s x).2.wr_idx = s.wr_idx ∨
    (Queue_TryEmplaceBack s x).2.wr_idx = Queue_next_wr s := by
  unfold Queue_TryEmplaceBack
  split
  · exact Or.inl rfl
  · exact Or.inr rfl

/-- Front moves neither index. -/
theorem Queue_front_idx {T : Type} {size : Nat} (s : QueueState T size) (w : Nat) :
    (Queue_Front s w).2.rd_idx = s.rd_idx ∧ (Queue_Front s w).2.wr_idx = s.wr_idx := by
  unfold Queue_Front
  split_ifs <;> exact ⟨rfl, rfl⟩

/-- Both indices of a reachable queue state are in range (and the
template size is positive). -/
theorem Queue_Reachable_bounds {T : Type} {size : Nat} {s : QueueState T size}
    (h : Queue_Reachable s) : 0 < size ∧ s.rd_idx < size ∧ s.wr_idx < size := by
  induction h with
  | init b0 hsz => exact ⟨hsz, hsz, hsz⟩
  | @step u op hr ih =>
      obtain ⟨h0, hrd, hwr⟩ := ih
      cases op with
      | emplace x =>
          refine ⟨h0, ?_, ?_⟩
          · show (Queue_TryEmplaceBack u x).2.rd_idx < size
            rw [Queue_emplace_rd]
            exact hrd
          · show (Queue_TryEmplaceBack u x).2.wr_idx < size
            rcases Queue_emplace_wr u x with hq | hq <;> rw [hq]
            · exact hwr
            · unfold Queue_next_wr
              split
              · exact h0
              · omega
      | frontOp w =>
          refine ⟨h0, ?_, ?_⟩
          · show (Queue_Front u w).2.rd_idx < size
            rw [(Queue_front_idx u w).1]
            exact hrd
          · show (Queue_Front u w).2.wr_idx < size
            rw [(Queue_front_idx u w).2]
            exact hwr
      | popOp =>
          refine ⟨h0, ?_, hwr⟩
          show (if u.rd_idx + 1 = size then 0 else u.rd_idx + 1) < size
          split
          · exact h0
          · omega

/-- C4: in every state reachable from a fresh queue by interface
operations, once size - 1 elements are resident (the occupied-slot count
(write_index - read_index) mod size equals size - 1), TryEmplaceBack
fails: the usable capacity of a size-slot buffer is size - 1, one slot
staying reserved to keep full distinguishable from empty. -/
theorem queue_capacity_reserved_slot {T : Type} {size : Nat}
    (s : QueueState T size) (x : T)
    (hr : Queue_Reachable s) (hfull : Queue_resident s = size - 1) :
    (Queue_TryEmplaceBack s x).1 = false := by
  obtain ⟨h0, hrd, hwr⟩ := Queue_Reachable_bounds hr
  unfold Queue_resident at hfull
  rw [wrapMod size _ (by omega)] at hfull
  have hcoll : Queue_next_wr s = s.rd_idx := by
    unfold Queue_next_wr
    split <;> split at hfull <;> omega
  unfold Queue_TryEmplaceBack
  rw [if_pos hcoll]

/-- State after one successful emplace into a fresh size-2 queue: the
single usable slot is occupied. -/
def c4_state : QueueState Nat 2 :=
  Queue_step (Queue_init (fun _ => 0)) (QOp.emplace 5)

/-- Closed instance of C4: the size-2 queue holding 1 = 2 - 1 elements
rejects a further emplace. -/
theorem queue_capacity_reserved_slot_witness :
    Queue_resident c4_state = 2 - 1 ∧ (Queue_TryEmplaceBack c4_state 9).1 = false := by
  have hr : Queue_Reachable c4_state :=
    Queue_Reachable.step (QOp.emplace 5) (Queue_Reachable.init (fun _ => 0) (by decide))
  have hfull : Queue_resident c4_state = 2 - 1 := by decide
  exact ⟨hfull, queue_capacity_reserved_slot c4_state 9 hr hfull⟩

/-! ## Claim C5: FIFO order via refinement to a list queue -/

/-- Adding a fixed offset and reducing modulo size is injective below
size. -/
theorem addModInj {size a b c : Nat} (ha : a < size) (hb : b < size)
    (h : (c + a) % size = (c + b) % size) : a = b := by
  have h1 : a % size = b % size := Nat.ModEq.add_left_cancel' c h
  rwa [Nat.mod_eq_of_lt ha, Nat.mod_eq_of_lt hb] at h1

/-- C5: the queue operations refine the functional FIFO queue on lists.
Whenever state s represents the abstract element list l (oldest first),
a successful TryEmplaceBack of x moves to a state representing l ++ [x];
when l is nonempty, Front (with any wait) returns a pointer to the read
slot without changing the state, that slot holds the oldest element
(the head of l), and Pop destroys exactly that slot and moves to a state
representing the tail of l.  Elements are therefore observed and
destroyed in exactly the order in which they were emplaced. -/
theorem queue_fifo_refinement {T : Type} {size : Nat}
    (s : QueueState T size) (l : List T) (x : T) (hinv : ContentsInv s l) :
    ((Queue_TryEmplaceBack s x).1 = true →
      ContentsInv (Queue_TryEmplaceBack s x).2 (l ++ [x])) ∧
    (∀ hne : l ≠ [],
      (∀ w : Nat, Queue_Front s w = (some s.rd_idx, s)) ∧
      s.buffer s.rd_idx = l.head hne ∧
      (Queue_Pop s).1 = s.rd_idx ∧
      ContentsInv (Queue_Pop s).2 l.tail) := by
  obtain ⟨h0, hrd, hwr, hlen, hidx, helem⟩ := hinv
  have hrd_mod : s.rd_idx % size = s.rd_idx := Nat.mod_eq_of_lt hrd
  have hneq : l ≠ [] → s.wr_idx ≠ s.rd_idx := by
    intro hne heq
    have hL : 0 < l.length := List.length_pos.mpr hne
    have h1 : (s.rd_idx + l.length) % size = (s.rd_idx + 0) % size := by
      rw [← hidx, heq, Nat.add_zero, hrd_mod]
    have h2 := addModInj hlen h0 h1
    omega
  constructor
  · intro hsucc
    have hcond : ¬ Queue_next_wr s = s.rd_idx := by
      intro hc
      unfold Queue_TryEmplaceBack at hsucc
      rw [if_pos hc] at hsucc
      exact Bool.noConfusion hsucc
    have hnw_mod : Queue_next_wr s = (s.wr_idx + 1) % size := by
      unfold Queue_next_wr
      split
      · next heq => rw [heq, Nat.mod_self]
      · next hne2 => exact (Nat.mod_eq_of_lt (by omega)).symm
    have hL1 : l.length + 1 < size := by
      rcases Nat.lt_or_ge (l.length + 1) size with hlt | hge
      · exact hlt
      · exfalso
        apply hcond
        rw [hnw_mod, hidx, Nat.mod_add_mod,
          show s.rd_idx + l.length + 1 = s.rd_idx + size by omega,
          Nat.add_mod_right]
        exact hrd_mod
    have hred : Queue_TryEmplaceBack s x =
        (true,
          { s with
            buffer := fun i => if i = s.wr_idx then x else s.buffer i
            count := (CountingSemaphore_Give size s.count).2
            wr_idx := Queue_next_wr s }) := by
      unfold Queue_TryEmplaceBack
      rw [if_neg hcond]
    rw [hred]
    refine ⟨h0, hrd, ?_, ?_, ?_, ?_⟩
    · show Queue_next_wr s < size
      rw [hnw_mod]
      exact Nat.mod_lt _ h0
    · show (l ++ [x]).length < size
      simpa using hL1
    · show Queue_next_wr s = (s.rd_idx + (l ++ [x]).length) % size
      rw [hnw_mod, hidx, Nat.mod_add_mod]
      simp only [List.length_append, List.length_singleton]
      rw [Nat.add_assoc]
    · intro i hi
      dsimp only
      have hi2 : i < l.length + 1 := by simpa using hi
      by_cases hiL : i = l.length
      · subst hiL
        rw [List.getElem?_concat_length, if_pos (by rw [← hidx])]
      · have hiLt : i < l.length := by omega
        have hslot : ¬ ((s.rd_idx + i) % size = s.wr_idx) := by
          intro hc
          rw [hidx] at hc
          exact hiL (addModInj (by omega) hlen hc)
        rw [List.getElem?_append_left hiLt, helem i hiLt, if_neg hslot]
  · intro hne
    have hwne : s.wr_idx ≠ s.rd_idx := hneq hne
    have hL : 0 < l.length := List.length_pos.mpr hne
    have hrd2 : (Queue_Pop s).2.rd_idx = (s.rd_idx + 1) % size := by
      show (if s.rd_idx + 1 = size then 0 else s.rd_idx + 1) = (s.rd_idx + 1) % size
      split
      · next heq => rw [heq, Nat.mod_self]
      · next hne2 => exact (Nat.mod_eq_of_lt (by omega)).symm
    refine ⟨?_, ?_, rfl, ?_⟩
    · intro w
      unfold Queue_Front
      rw [if_neg hwne]
    · have h00 := helem 0 hL
      rw [Nat.add_zero, hrd_mod] at h00
      cases l with
      | nil => exact absurd rfl hne
      | cons hd tl =>
          rw [List.head_cons]
          have h01 : hd = s.buffer s.rd_idx := by simpa using h00
          exact h01.symm
    · refine ⟨h0, ?_, hwr, ?_, ?_, ?_⟩
      · rw [hrd2]
        exact Nat.mod_lt _ h0
      · show l.tail.length < size
        rw [List.length_tail]
        omega
      · show s.wr_idx = ((Queue_Pop s).2.rd_idx + l.tail.length) % size
        rw [hrd2, Nat.mod_add_mod, List.length_tail,
          show s.rd_idx + 1 + (l.length - 1) = s.rd_idx + l.length by omega]
        exact hidx
      · intro i hi
        have hi2 : i + 1 < l.length := by
          rw [List.length_tail] at hi
          omega
        have he := helem (i + 1) hi2
        have hslot : ((Queue_Pop s).2.rd_idx + i) % size = (s.rd_idx + (i + 1)) % size := by
          rw [hrd2, Nat.mod_add_mod,
            show s.rd_idx + 1 + i = s.rd_idx + (i + 1) by omega]
        cases l with
        | nil => exact absurd rfl hne
        | cons hd tl =>
            show tl[i]? = some (s.buffer (((Queue_Pop s).2.rd_idx + i) % size))
            rw [hslot, ← List.getElem?_cons_succ]
            exact he

/-- Concrete size-2 queue state representing the one-element list [5]. -/
def c5_state : QueueState Nat 2 :=
  { buffer := fun _ => 5, count := 1, rd_idx := 0, wr_idx := 1 }

/-- The concrete state c5_state represents the abstract list [5]. -/
theorem c5_inv_single : ContentsInv c5_state [5] :=
  ⟨by decide, by decide, by decide, by decide, by decide, by
    intro i hi
    have h1 : i = 0 := by
      simp only [List.length_singleton] at hi
      omega
    subst h1
    rfl⟩

/-- Closed instance of C5: the refinement applied to the concrete state
representing [5], emplacing 7. -/
theorem queue_fifo_refinement_witness :
    ContentsInv c5_state [5] ∧
    (((Queue_TryEmplaceBack c5_state 7).1 = true →
        ContentsInv (Queue_TryEmplaceBack c5_state 7).2 ([5] ++ [7])) ∧
     (∀ hne : ([5] : List Nat) ≠ [],
        (∀ w : Nat, Queue_Front c5_state w = (some c5_state.rd_idx, c5_state)) ∧
        c5_state.buffer c5_state.rd_idx = ([5] : List Nat).head hne ∧
        (Queue_Pop c5_state).1 = c5_state.rd_idx ∧
        ContentsInv (Queue_Pop c5_state).2 ([5] : List Nat).tail)) :=
  ⟨c5_inv_single, queue_fifo_refinement c5_state [5] 7 c5_inv_single⟩
